import Mathlib

set_option autoImplicit false

/-!
Shallow embedding of `SequelizeChangeTracker` (src/index.js) and proofs about
the claims on its specification.

The JavaScript source keeps two revisions of the class; where they differ the
later one is embedded as the current code (`notifySubscribers`), the earlier
one as `notifySubscribersRev1`.  Registry state is mutated in place in JS; the
embedding threads an explicit `TrackerState`.  JavaScript objects used as maps
are embedded as insertion-ordered association lists over `String` keys, and
property-key coercion (`String(v)`) is modelled by `JsVal.toKey`.
-/

/-- JavaScript primitive values that flow through the tracker as subscription
ids, instance ids and record-field values.  `undefined` is `undefined`. -/
inductive JsVal where
  | undefined
  | null
  | str (s : String)
  | num (n : Int)
  deriving DecidableEq, Repr

/-- JavaScript property-key coercion `String(v)` as applied when a value is
used as an object key (`obj[v]`). -/
def JsVal.toKey : JsVal → String
  | .undefined => "undefined"
  | .null  => "null"
  | .str s => s
  | .num n => toString n

/-- JavaScript truthiness of the modelled values. -/
def JsVal.truthy : JsVal → Bool
  | .undefined => false
  | .null  => false
  | .str s => s != ""
  | .num n => n != 0

/-- Errors thrown by the JavaScript code: `new Error(msg)` and runtime
`TypeError`s (property access or call on `undefined`). -/
inductive JsError where
  | error (msg : String)
  | typeError (msg : String)
  deriving DecidableEq, Repr

/-- Lookup in a JavaScript object embedded as an insertion-ordered
association list (`obj[k]`, `none` = property absent). -/
def objGet {α : Type} (o : List (String × α)) (k : String) : Option α :=
  match o.find? (fun p => p.1 == k) with
  | some p => some p.2
  | none => none

/-- Property write `obj[k] = v`: overwrites in place, appends otherwise
(JavaScript insertion order). -/
def objSet {α : Type} : List (String × α) → String → α → List (String × α)
  | [], k, v => [(k, v)]
  | p :: rest, k, v => if p.1 == k then (k, v) :: rest else p :: objSet rest k v

/-- Property read on a record-data object: an absent field reads as
`undefined`. -/
def fieldGet (o : List (String × JsVal)) (k : String) : JsVal :=
  (objGet o k).getD .undefined

/-- `Array.prototype.findIndex`: index of the first match, `-1` otherwise. -/
def jsFindIndex {α : Type} (l : List α) (p : α → Bool) : Int :=
  match l.findIdx? p with
  | some i => (i : Int)
  | none => -1

/-- `[...new Set(l)]`: deduplication keeping the first occurrence of each
value, in order. -/
def dedupList (l : List JsVal) : List JsVal :=
  l.foldl (fun acc x => if acc.contains x then acc else acc ++ [x]) []

/-- The four Sequelize association classes the constructor distinguishes. -/
inductive AssocKind where
  | belongsTo
  | belongsToMany
  | hasOne
  | hasMany
  deriving DecidableEq, Repr

/-- One entry of `model.associations`: the constructor only reads the class of
the association and `association.source.name` / `association.target.name`. -/
structure Association where
  kind : AssocKind
  source : String
  target : String
  deriving DecidableEq, Repr

/-- A model handed to the constructor: its `name` and its `associations`. -/
structure ModelDecl where
  name : String
  associations : List Association
  deriving DecidableEq, Repr

/-- One element of a `subscriptionsById` bucket: the JS objects
`{ modelName, generic: true }` and `{ modelName, instanceId }`. -/
inductive SubEntry where
  | generic (modelName : String)
  | specific (modelName : String) (instanceId : JsVal)
  deriving DecidableEq, Repr

/-- The `modelName` property of a bucket entry. -/
def SubEntry.mName : SubEntry → String
  | .generic m => m
  | .specific m _ => m

/-- The `instanceId` property of a bucket entry (`undefined` when absent,
i.e. on a generic entry). -/
def SubEntry.callIid : SubEntry → JsVal
  | .generic _ => .undefined
  | .specific _ iid => iid

/-- Whether `subObj.generic === true` holds for a bucket entry (the property
is absent, hence `undefined`, on a specific entry). -/
def SubEntry.callGeneric : SubEntry → Bool
  | .generic _ => true
  | .specific _ _ => false

/-- The key of `subscriptionsByResource[modelName]` under which the entry's
subscription id is stored: `'generic'`, or the coerced instance id. -/
def SubEntry.resourceKey : SubEntry → String
  | .generic _ => "generic"
  | .specific _ iid => iid.toKey

/-- The mutable state of a `SequelizeChangeTracker` instance.
`subscriptionsById` is keyed by the coerced subscription id (JS object key);
`subscriptionsByResource` maps a model name to an object keyed by `'generic'`
and coerced instance ids. -/
structure TrackerState where
  modelNames : List String
  dependingModelMap : List (String × List String)
  subscriptionsByResource : List (String × List (String × List JsVal))
  subscriptionsById : List (String × List SubEntry)
  deriving DecidableEq, Repr

/-- `static genericOperations = [ 'create', 'delete' ]`. -/
def genericOperations : List String := ["create", "delete"]

/-- `static specificOperations = [ 'update', 'delete' ]` (later revision). -/
def specificOperations : List String := ["update", "delete"]

/-- The constructor's per-association update of `dependingModelMap`
(src/index.js lines 431-446).  Both branches share one body, factored here as
`pushUnique`: look up the list at `key`, and push `val` onto it when not
already included.  Indexing a name that is not a key yields `undefined` in JS
and the subsequent `.includes` call throws a `TypeError`.  For
`BelongsTo`/`BelongsToMany` the key is the source name and the value the
target name; for `HasOne`/`HasMany` the key is the target name and the value
the source name. -/
def pushUnique (dmm : List (String × List String)) (key val : String) :
    Except JsError (List (String × List String)) :=
  match objGet dmm key with
  | none => .error (.typeError "Cannot read properties of undefined (reading includes)")
  | some dependingModelList =>
      if dependingModelList.contains val then .ok dmm
      else .ok (objSet dmm key (dependingModelList ++ [val]))

def applyAssociation (dmm : List (String × List String)) (a : Association) :
    Except JsError (List (String × List String)) :=
  match a.kind with
  | .belongsTo | .belongsToMany => pushUnique dmm a.source a.target
  | .hasOne | .hasMany => pushUnique dmm a.target a.source

/-- The constructor's construction of `dependingModelMap`: initialise every
model name to `[]`, then fold `applyAssociation` over every association of
every model, in order. -/
def buildDependingModelMap (models : List ModelDecl) :
    Except JsError (List (String × List String)) :=
  models.foldlM (fun d m => m.associations.foldlM applyAssociation d)
    (models.foldl (fun d m => objSet d m.name []) [])

/-- The observable result of the constructor: `modelNames`, the dependency
map, `subscriptionsByResource` initialised to `{ generic: [] }` per model, and
an empty `subscriptionsById`.  A thrown `TypeError` aborts construction (no
instance is produced), so the partial per-model interleaving of the JS loop is
not observable and the state is built after the fold. -/
def buildTracker (models : List ModelDecl) : Except JsError TrackerState := do
  let dmm ← buildDependingModelMap models
  pure {
    modelNames := models.map (fun m => m.name)
    dependingModelMap := dmm
    subscriptionsByResource := models.foldl (fun r m => objSet r m.name [("generic", [])]) []
    subscriptionsById := [] }

/-- Convenience: the constructed state of a configuration known to build
successfully (used only to name concrete states in theorems). -/
def buildTrackerD (models : List ModelDecl) : TrackerState :=
  match buildTracker models with
  | .ok s => s
  | .error _ => ⟨[], [], [], []⟩

/-- The predicate of the `findIndex` over a `subscriptionsById` bucket
(src/index.js lines 714-717): `subObj.modelName === modelName &&
(generic === true ? subObj.generic === true : subObj.instanceId === instanceId)`.
On a generic entry `instanceId` is absent, hence `undefined`; on a specific
entry `generic` is absent, hence not `=== true`. -/
def entryMatches (modelName : String) (instanceId : JsVal) (generic : Bool) :
    SubEntry → Bool
  | .generic m => m == modelName && (if generic then true else JsVal.undefined == instanceId)
  | .specific m iid => m == modelName && (if generic then false else iid == instanceId)

/-- `findSubscriptionIndices` (src/index.js lines 712-724).  The by-id index
uses the bucket at the coerced subscription id (default `[]`); the by-resource
index looks under `'generic'` or the coerced instance id.  When
`subscriptionsByResource[modelName]` is absent the JS expression
`(undefined)[modelProp]` throws a `TypeError`. -/
def findSubscriptionIndices (s : TrackerState) (subscriptionId : JsVal)
    (modelName : String) (instanceId : JsVal) (generic : Bool) :
    Except JsError (Int × Int) :=
  let sbiIndex := jsFindIndex ((objGet s.subscriptionsById subscriptionId.toKey).getD [])
      (entryMatches modelName instanceId generic)
  let modelProp := if generic then "generic" else instanceId.toKey
  match objGet s.subscriptionsByResource modelName with
  | none => .error (.typeError "Cannot read properties of undefined (reading modelProp)")
  | some resMap =>
      let sbrIndex := jsFindIndex ((objGet resMap modelProp).getD [])
          (fun id => id == subscriptionId)
      .ok (sbiIndex, sbrIndex)

/-- `addSubscription` (src/index.js lines 756-801).  Returns the thrown error
(if any), the state after the call — every `throw` in the source happens
before any mutation except the unreachable-from-construction case noted
below — and the `subscriptions-changed` event payload emitted on success. -/
structure SubsChangedEvent where
  subscriptionId : JsVal
  modelName : String
  instanceId : JsVal
  generic : Bool
  deriving DecidableEq, Repr

def addSubscription (s : TrackerState) (modelName : String)
    (subscriptionId instanceId : JsVal) :
    Option JsError × TrackerState × Option SubsChangedEvent :=
  if ¬ s.modelNames.contains modelName then
    (some (.error ("Unknown model: " ++ modelName)), s, none)
  else
    let generic := instanceId == JsVal.undefined
    match findSubscriptionIndices s subscriptionId modelName instanceId generic with
    | .error e => (some e, s, none)
    | .ok (sbiIndex, _sbrIndex) =>
      if sbiIndex != -1 then
        (some (.error "Already subscribed"), s, none)
      else
        let bucket := (objGet s.subscriptionsById subscriptionId.toKey).getD []
        match objGet s.subscriptionsByResource modelName with
        | none =>
          -- unreachable: `findSubscriptionIndices` has already thrown on this state
          (some (.typeError "Cannot read properties of undefined (reading generic)"), s, none)
        | some resMap =>
          if generic then
            let byId := objSet s.subscriptionsById subscriptionId.toKey
                (bucket ++ [SubEntry.generic modelName])
            match objGet resMap "generic" with
            | none =>
              -- in JS the push into `subscriptionsById` has already happened
              -- when `subscriptionsByResource[modelName].generic.push` throws
              (some (.typeError "Cannot read properties of undefined (reading push)"),
               { s with subscriptionsById := byId }, none)
            | some genList =>
              (none,
               { s with
                  subscriptionsById := byId
                  subscriptionsByResource := objSet s.subscriptionsByResource modelName
                    (objSet resMap "generic" (genList ++ [subscriptionId])) },
               some { subscriptionId := subscriptionId, modelName := modelName,
                      instanceId := instanceId, generic := generic })
          else
            let byId := objSet s.subscriptionsById subscriptionId.toKey
                (bucket ++ [SubEntry.specific modelName instanceId])
            let instList := (objGet resMap instanceId.toKey).getD []
            (none,
             { s with
                subscriptionsById := byId
                subscriptionsByResource := objSet s.subscriptionsByResource modelName
                  (objSet resMap instanceId.toKey (instList ++ [subscriptionId])) },
             some { subscriptionId := subscriptionId, modelName := modelName,
                    instanceId := instanceId, generic := generic })

/-- `removeSubscription` (src/index.js lines 734-747).  Its first statement is
`this.findSBIIndex({ ... })`, but the class defines no method named
`findSBIIndex` (the lookup helper that exists is `findSubscriptionIndices`),
so in JavaScript the call throws
`TypeError: this.findSBIIndex is not a function` before either index is
touched, on every invocation. -/
def removeSubscription (s : TrackerState) (subscriptionId : JsVal)
    (modelName : String) (instanceId : JsVal) (generic : Bool) :
    Option JsError × TrackerState :=
  (some (.typeError "this.findSBIIndex is not a function"), s)

/-- The body `removeSubscription` would execute if its lookup call resolved to
the helper that exists, `findSubscriptionIndices` (src/index.js lines
738-746): fail when either index misses, otherwise splice the entry out of
both. -/
def removeSubscriptionPatched (s : TrackerState) (subscriptionId : JsVal)
    (modelName : String) (instanceId : JsVal) (generic : Bool) :
    Option JsError × TrackerState :=
  match findSubscriptionIndices s subscriptionId modelName instanceId generic with
  | .error e => (some e, s)
  | .ok (sbiIndex, sbrIndex) =>
    if sbiIndex == -1 || sbrIndex == -1 then
      (some (.error ("Can't find subscription on " ++ modelName)), s)
    else
      let bucket := (objGet s.subscriptionsById subscriptionId.toKey).getD []
      let byId := objSet s.subscriptionsById subscriptionId.toKey
          (bucket.eraseIdx sbiIndex.toNat)
      let modelProp := if generic then "generic" else instanceId.toKey
      match objGet s.subscriptionsByResource modelName with
      | none => (some (.typeError "Cannot read properties of undefined"), s)
      | some resMap =>
        let resList := (objGet resMap modelProp).getD []
        (none,
         { s with
            subscriptionsById := byId
            subscriptionsByResource := objSet s.subscriptionsByResource modelName
              (objSet resMap modelProp (resList.eraseIdx sbrIndex.toNat)) })

/-- The `for..of` loop of `removeSubscriptionAllModels` (src/index.js lines
697-699).  The JS iterator walks `this.subscriptionsById[subscriptionId]`
live, checking the index against the current array each step; the array never
grows during the loop, so its initial length bounds the number of iterations
and is used as fuel. -/
def removeAllLoop (subscriptionId : JsVal) :
    Nat → Nat → TrackerState → Option JsError × TrackerState
  | 0, _, s => (none, s)
  | fuel + 1, i, s =>
    let bucket := (objGet s.subscriptionsById subscriptionId.toKey).getD []
    match bucket[i]? with
    | none => (none, s)
    | some e =>
      match removeSubscription s subscriptionId e.mName e.callIid e.callGeneric with
      | (some err, s') => (some err, s')
      | (none, s') => removeAllLoop subscriptionId fuel (i + 1) s'

/-- `removeSubscriptionAllModels` (src/index.js lines 696-700).  When the
bucket is absent, `for..of undefined` throws a `TypeError`. -/
def removeSubscriptionAllModels (s : TrackerState) (subscriptionId : JsVal) :
    Option JsError × TrackerState :=
  match objGet s.subscriptionsById subscriptionId.toKey with
  | none => (some (.typeError "subscriptionsById entry is not iterable"), s)
  | some bucket => removeAllLoop subscriptionId bucket.length 0 s

/-- `addSubscriptionIfRequested` (src/index.js lines 602-629), the tracked-read
add path.  `instances = none` models a falsy `instance` argument; the
one-object and array cases are unified as the JS code does with
`Array.isArray(instance) ? instance : [instance]`, each element contributing
`(inst.constructor.name, inst.id)`.  `trackChanges = none` models an absent or
falsy `options.trackChanges`.  An error thrown by an inner `addSubscription`
aborts the loop but keeps the mutations of earlier iterations. -/
def addSubscriptionIfRequested (s : TrackerState)
    (instances : Option (List (String × JsVal))) (trackChanges : Option JsVal) :
    Option JsError × TrackerState :=
  match instances with
  | none => (none, s)
  | some insts =>
    match trackChanges with
    | none => (none, s)
    | some subscriptionId =>
      if ¬ subscriptionId.truthy then
        (some (.error "Missing subscription id"), s)
      else
        insts.foldl (fun acc inst =>
          match acc with
          | (some e, s') => (some e, s')
          | (none, s') =>
            match addSubscription s' inst.1 subscriptionId inst.2 with
            | (e, s'', _) => (e, s'')) (none, s)

/-- The consolidated `data-changed` event payload (the source's field
`instance` is named `instanceData` here because `instance` is a Lean
keyword). -/
structure DataChangedEvent where
  operation : String
  model : String
  instanceData : List (String × JsVal)
  changedFields : List String
  subscriptionIds : List JsVal
  deriving DecidableEq, Repr

/-- One iteration of the cascade loop shared verbatim by both revisions of
`notifySubscribers` (src/index.js lines 663-670 and 205-212): resolve the
foreign key named after the depending model, look the coerced value up in that
model's by-resource map and append the list when it is a non-empty array.
Indexing `subscriptionsByResource[dependingModel]` when that model is absent
throws a `TypeError` in JS. -/
def cascadeStep (s : TrackerState) (instanceData : List (String × JsVal))
    (acc : List JsVal) (dependingModel : String) : Except JsError (List JsVal) :=
  let foreignKey := dependingModel ++ "Id"
  let dependingInstanceId := fieldGet instanceData foreignKey
  match objGet s.subscriptionsByResource dependingModel with
  | none => .error (.typeError "Cannot read properties of undefined (reading cascade)")
  | some resMap =>
    match objGet resMap dependingInstanceId.toKey with
    | some dependingInstanceSubscriptions =>
        if dependingInstanceSubscriptions.length > 0 then
          .ok (acc ++ dependingInstanceSubscriptions)
        else .ok acc
    | none => .ok acc

/-- The full cascade loop over `dependingModelMap[modelName]`; `for..of` over
an absent entry throws a `TypeError`. -/
def cascadeSubIds (s : TrackerState) (modelName : String)
    (instanceData : List (String × JsVal)) : Except JsError (List JsVal) :=
  match objGet s.dependingModelMap modelName with
  | none => .error (.typeError "dependingModelMap entry is not iterable")
  | some deps => deps.foldlM (cascadeStep s instanceData) []

/-- Direct subscriber ids of the later revision of `notifySubscribers`
(src/index.js lines 648-659): generic ids for create/delete, specific ids for
update/delete with a `|| []` fallback, deduplicated with a `Set`.  The spread
of `subscriptionsByResource[modelName].generic` throws when that property is
absent, and everything throws when the model itself is absent. -/
def directSubIdsRev2 (s : TrackerState) (modelName operation : String)
    (instanceData : List (String × JsVal)) : Except JsError (List JsVal) :=
  match objGet s.subscriptionsByResource modelName with
  | none => .error (.typeError "Cannot read properties of undefined (reading generic)")
  | some resMap =>
    let genericSubIdsE : Except JsError (List JsVal) :=
      if genericOperations.contains operation then
        match objGet resMap "generic" with
        | none => .error (.typeError "spread of undefined")
        | some l => .ok l
      else .ok []
    match genericSubIdsE with
    | .error e => .error e
    | .ok genericSubIds =>
      let specificSubIds :=
        if specificOperations.contains operation then
          (objGet resMap (fieldGet instanceData "id").toKey).getD []
        else []
      .ok (dedupList (genericSubIds ++ specificSubIds))

/-- Direct subscriber ids of the earlier revision (src/index.js lines
199-201): generic ids for create/delete, otherwise a spread of
`subscriptionsByResource[modelName][instanceData.id]` with no fallback — the
spread throws a `TypeError` when no entry exists for the id. -/
def directSubIdsRev1 (s : TrackerState) (modelName operation : String)
    (instanceData : List (String × JsVal)) : Except JsError (List JsVal) :=
  match objGet s.subscriptionsByResource modelName with
  | none => .error (.typeError "Cannot read properties of undefined (reading generic)")
  | some resMap =>
    if genericOperations.contains operation then
      match objGet resMap "generic" with
      | none => .error (.typeError "spread of undefined")
      | some l => .ok l
    else
      match objGet resMap (fieldGet instanceData "id").toKey with
      | none => .error (.typeError "spread of undefined")
      | some l => .ok l

/-- The tail shared verbatim by both revisions (src/index.js lines 663-686 and
205-227): append the cascade contributions to the direct ids and emit one
`data-changed` event iff the result is non-empty. -/
def notifyTail (s : TrackerState) (modelName operation : String)
    (changedFields : List String) (instanceData : List (String × JsVal))
    (directIds : List JsVal) : Except JsError (Option DataChangedEvent) := do
  let cascadeIds ← cascadeSubIds s modelName instanceData
  let subscriptionIds := directIds ++ cascadeIds
  pure (if subscriptionIds.length > 0 then
          some { operation := operation, model := modelName,
                 instanceData := instanceData, changedFields := changedFields,
                 subscriptionIds := subscriptionIds }
        else none)

/-- `notifySubscribers`, later revision (src/index.js lines 644-686). -/
def notifySubscribers (s : TrackerState) (modelName operation : String)
    (changedFields : List String) (instanceData : List (String × JsVal)) :
    Except JsError (Option DataChangedEvent) := do
  let directIds ← directSubIdsRev2 s modelName operation instanceData
  notifyTail s modelName operation changedFields instanceData directIds

/-- `notifySubscribers`, earlier revision (src/index.js lines 195-228). -/
def notifySubscribersRev1 (s : TrackerState) (modelName operation : String)
    (changedFields : List String) (instanceData : List (String × JsVal)) :
    Except JsError (Option DataChangedEvent) := do
  let directIds ← directSubIdsRev1 s modelName operation instanceData
  notifyTail s modelName operation changedFields instanceData directIds

/-- One public registry mutation: explicit add, explicit remove, remove-all,
or the tracked-read add path. -/
inductive RegistryCall where
  | add (modelName : String) (subscriptionId instanceId : JsVal)
  | remove (subscriptionId : JsVal) (modelName : String) (instanceId : JsVal) (generic : Bool)
  | removeAll (subscriptionId : JsVal)
  | trackedRead (instances : Option (List (String × JsVal))) (trackChanges : Option JsVal)
  deriving DecidableEq, Repr

/-- Execute one registry call: the error it throws, if any, and the state it
leaves behind (mutations preceding a throw persist, as in JS). -/
def stepCall (c : RegistryCall) (s : TrackerState) : Option JsError × TrackerState :=
  match c with
  | .add m sid iid =>
    match addSubscription s m sid iid with
    | (e, s', _) => (e, s')
  | .remove sid m iid g => removeSubscription s sid m iid g
  | .removeAll sid => removeSubscriptionAllModels s sid
  | .trackedRead insts tc => addSubscriptionIfRequested s insts tc

/-- Run a sequence of registry calls, keeping each call's resulting state
whether it returned or threw. -/
def runCalls (cs : List RegistryCall) (s : TrackerState) : TrackerState :=
  cs.foldl (fun s c => (stepCall c s).2) s

/-- The `subscriptionsById` bucket stored under a (coerced) subscription-id
key. -/
def entriesAt (s : TrackerState) (sidKey : String) : List SubEntry :=
  (objGet s.subscriptionsById sidKey).getD []

/-- The subscription-id list stored in `subscriptionsByResource` under a model
name and resource key. -/
def resourceList (s : TrackerState) (m k : String) : List JsVal :=
  (objGet ((objGet s.subscriptionsByResource m).getD []) k).getD []

/-- How many entries of the bucket at `sidKey` concern model `m` and resource
key `k`. -/
def entryCount (s : TrackerState) (sidKey m k : String) : Nat :=
  ((entriesAt s sidKey).filter (fun e => e.mName == m && e.resourceKey == k)).length

/-- How many occurrences of subscription ids coercing to `sidKey` the
by-resource list at `(m, k)` holds. -/
def resourceCount (s : TrackerState) (m k sidKey : String) : Nat :=
  ((resourceList s m k).filter (fun sid => sid.toKey == sidKey)).length

/-- Mutual consistency of the two indices at the level of coerced resource
keys, with multiplicity. -/
def consistentKeyed (s : TrackerState) : Prop :=
  ∀ sidKey m k, entryCount s sidKey m k = resourceCount s m k sidKey

/-- Mutual consistency as the claim words it: an entry is in the by-id bucket
of a subscription id exactly when that id is in the by-resource list of the
entry's model under the corresponding resource key. -/
def consistentNaive (s : TrackerState) : Prop :=
  ∀ (sid : JsVal) (e : SubEntry),
    e ∈ entriesAt s sid.toKey ↔ sid ∈ resourceList s e.mName e.resourceKey

/-- Every known model has a by-resource map with a `generic` list — the shape
the constructor establishes. -/
def genericListsPresent (s : TrackerState) : Prop :=
  ∀ m, s.modelNames.contains m →
    ∃ rm, objGet s.subscriptionsByResource m = some rm ∧ (objGet rm "generic").isSome

/-- Fixture: a single model `B` with no associations. -/
def modelsB : List ModelDecl := [⟨"B", []⟩]

/-- Fixture: `Child.belongsTo(Parent)` declared on `Child`; `Parent` has no
associations. -/
def modelsChildParent : List ModelDecl :=
  [⟨"Child", [⟨.belongsTo, "Child", "Parent"⟩]⟩, ⟨"Parent", []⟩]

/-- Fixture: the same relation declared from both sides,
`Child.belongsTo(Parent)` and `Parent.hasMany(Child)`. -/
def modelsBothDirections : List ModelDecl :=
  [⟨"Child", [⟨.belongsTo, "Child", "Parent"⟩]⟩,
   ⟨"Parent", [⟨.hasMany, "Parent", "Child"⟩]⟩]

/-- Fixture: `C.belongsTo(U)` where `U` is not among the constructed models. -/
def modelsUnknownTarget : List ModelDecl := [⟨"C", [⟨.belongsTo, "C", "U"⟩]⟩]

/-- Fixture: `T.belongsTo(D)`, so `dependingModelMap.T = [D]` and mutations on
`T` cascade through the field `DId`. -/
def modelsTD : List ModelDecl := [⟨"T", [⟨.belongsTo, "T", "D"⟩]⟩, ⟨"D", []⟩]

/-- Fixture: models `A` and `B` with no associations. -/
def modelsAB : List ModelDecl := [⟨"A", []⟩, ⟨"B", []⟩]

/-- State with one generic subscription `s1` on `B`. -/
def stateGenericB : TrackerState :=
  (stepCall (.add "B" (.str "s1") .undefined) (buildTrackerD modelsB)).2

/-- State with generic subscriptions `s1` on both `A` and `B`. -/
def stateTwoSubs : TrackerState :=
  runCalls [.add "A" (.str "s1") .undefined, .add "B" (.str "s1") .undefined]
    (buildTrackerD modelsAB)

/-- State over `modelsChildParent` where `s` subscribes generically to `Child`
and specifically to `Parent` instance `p1`. -/
def stateCascadeDup : TrackerState :=
  runCalls [.add "Child" (.str "s") .undefined, .add "Parent" (.str "s") (.str "p1")]
    (buildTrackerD modelsChildParent)

/-- State over `modelsTD` where `s` holds a specific subscription on `D` that
was registered with `instanceId = null`. -/
def stateNullSub : TrackerState :=
  (stepCall (.add "D" (.str "s") .null) (buildTrackerD modelsTD)).2

/-- State with one specific subscription `s1` on `B` instance `b1`. -/
def stateSpecificB : TrackerState :=
  (stepCall (.add "B" (.str "s1") (.str "b1")) (buildTrackerD modelsB)).2

/-- State over a single model `M` where `s1` holds a specific subscription
whose instance id is the literal string `generic`. -/
def stateGenericCollision : TrackerState :=
  (stepCall (.add "M" (.str "s1") (.str "generic")) (buildTrackerD [⟨"M", []⟩])).2

/-- State where the same subscription id holds both a generic subscription on
`B` and a specific one on `B` instance `b1`. -/
def stateDeleteBoth : TrackerState :=
  runCalls [.add "B" (.str "s1") .undefined, .add "B" (.str "s1") (.str "b1")]
    (buildTrackerD modelsB)
/-- The dependency list stored for a model name (`[]` when the name is not a
key, matching the `getD` reads used on the notification path). -/
def dmmGet (dmm : List (String × List String)) (c : String) : List String :=
  (objGet dmm c).getD []

/-- Whether association `a` makes `c` the physical holder of a foreign
reference to `p`, following the constructor's classification: a
`BelongsTo`/`BelongsToMany` declared with source `c` and target `p`, or a
`HasOne`/`HasMany` declared with source `p` and target `c`. -/
def holdsForeignKey (a : Association) (c p : String) : Prop :=
  ((a.kind = .belongsTo ∨ a.kind = .belongsToMany) ∧ a.source = c ∧ a.target = p) ∨
  ((a.kind = .hasOne ∨ a.kind = .hasMany) ∧ a.source = p ∧ a.target = c)

instance (a : Association) (c p : String) : Decidable (holdsForeignKey a c p) := by
  unfold holdsForeignKey
  infer_instance

/-- Some association of some given model makes `c` hold a foreign reference
to `p`. -/
def declaredForeignKey (models : List ModelDecl) (c p : String) : Prop :=
  ∃ mo ∈ models, ∃ a ∈ mo.associations, holdsForeignKey a c p
/-- The keys of a dependency map are exactly the given names. -/
def sameKeys (dmm : List (String × List String)) (names : List String) : Prop :=
  ∀ c, (objGet dmm c).isSome ↔ c ∈ names

/-- An association on which the constructor's map update indexes a name
outside the known set: the key side (`source` for `BelongsTo`/`BelongsToMany`,
`target` for `HasOne`/`HasMany`) is unknown.  Only these associations make
construction throw; an unknown name on the value side is accepted silently. -/
def badAssociation (names : List String) (a : Association) : Prop :=
  ((a.kind = .belongsTo ∨ a.kind = .belongsToMany) ∧ a.source ∉ names) ∨
  ((a.kind = .hasOne ∨ a.kind = .hasMany) ∧ a.target ∉ names)
/-- Combined inductive invariant: keyed consistency of the two indices plus
the structural shape the constructor establishes (every known model has a
by-resource map with a `generic` list). -/
def trackerWF (s : TrackerState) : Prop := consistentKeyed s ∧ genericListsPresent s

theorem objGet_nil {α : Type} (k : String) : objGet ([] : List (String × α)) k = none := rfl

theorem objGet_cons {α : Type} (p : String × α) (rest : List (String × α)) (k : String) :
    objGet (p :: rest) k = if p.1 = k then some p.2 else objGet rest k := by
  by_cases h : p.1 = k
  · simp [objGet, List.find?, h]
  · have hb : (p.1 == k) = false := by simp [h]
    simp [objGet, List.find?, hb, h]

theorem objSet_nil {α : Type} (k : String) (v : α) :
    objSet ([] : List (String × α)) k v = [(k, v)] := rfl

theorem objSet_cons {α : Type} (p : String × α) (rest : List (String × α)) (k : String) (v : α) :
    objSet (p :: rest) k v = if p.1 = k then (k, v) :: rest else p :: objSet rest k v := by
  by_cases h : p.1 = k <;> simp [objSet, h]

theorem objGet_objSet_self {α : Type} (l : List (String × α)) (k : String) (v : α) :
    objGet (objSet l k v) k = some v := by
  induction l with
  | nil => simp [objSet_nil, objGet_cons]
  | cons p rest ih =>
    by_cases h : p.1 = k
    · simp [objSet_cons, objGet_cons, h]
    · simp [objSet_cons, objGet_cons, h, ih]

theorem objGet_objSet_ne {α : Type} (l : List (String × α)) (k k' : String) (v : α)
    (h : k ≠ k') : objGet (objSet l k v) k' = objGet l k' := by
  induction l with
  | nil => simp [objSet_nil, objGet_cons, objGet_nil, h]
  | cons p rest ih =>
    by_cases hp : p.1 = k
    · have : ¬ (k = k') := h
      simp [objSet_cons, objGet_cons, hp, this]
    · simp [objSet_cons, objGet_cons, hp, ih]

theorem objGet_mem {α : Type} {l : List (String × α)} {k : String} {v : α}
    (h : objGet l k = some v) : (k, v) ∈ l := by
  induction l with
  | nil => simp [objGet_nil] at h
  | cons p rest ih =>
    rw [objGet_cons] at h
    by_cases hp : p.1 = k
    · simp [hp] at h
      cases p
      simp_all
    · simp [hp] at h
      exact List.mem_cons_of_mem _ (ih h)

theorem mem_objSet {α : Type} {l : List (String × α)} {k : String} {v : α} {p : String × α}
    (h : p ∈ objSet l k v) : p ∈ l ∨ p = (k, v) := by
  induction l with
  | nil => simp [objSet_nil] at h; simp [h]
  | cons q rest ih =>
    rw [objSet_cons] at h
    by_cases hq : q.1 = k
    · simp [hq] at h
      rcases h with h | h
      · right; simp [h]
      · left; simp [h]
    · simp [hq] at h
      rcases h with h | h
      · left; simp [h]
      · rcases ih h with h' | h'
        · left; simp [h']
        · right; exact h'

theorem except_bind_ok {ε α β : Type} {x : Except ε α} {f : α → Except ε β} {b : β}
    (h : (x >>= f) = .ok b) : ∃ a, x = .ok a ∧ f a = .ok b := by
  cases x with
  | error e => simp [Bind.bind, Except.bind] at h
  | ok a => exact ⟨a, rfl, by simpa [Bind.bind, Except.bind] using h⟩

theorem findIdx?_none_forall {α : Type} (p : α → Bool) :
    ∀ (l : List α) (i : Nat), List.findIdx? p l i = none → ∀ x ∈ l, p x = false := by
  intro l
  induction l with
  | nil => simp
  | cons a t ih =>
    intro i h x hx
    rw [List.findIdx?_cons] at h
    by_cases hp : p a
    · simp [hp] at h
    · simp only [hp, if_false] at h
      rcases List.mem_cons.mp hx with hx | hx
      · subst hx; simpa using hp
      · exact ih (i + 1) h x hx

theorem jsFindIndex_ne_neg_one {α : Type} (l : List α) (p : α → Bool)
    (h : ∃ x ∈ l, p x = true) : jsFindIndex l p ≠ -1 := by
  unfold jsFindIndex
  cases hf : List.findIdx? p l 0 with
  | some i => simp
  | none =>
    obtain ⟨x, hx, hpx⟩ := h
    have := findIdx?_none_forall p l 0 hf x hx
    simp [this] at hpx

theorem dedupList_aux_nodup (l : List JsVal) :
    ∀ acc : List JsVal, acc.Nodup →
      (l.foldl (fun acc x => if acc.contains x then acc else acc ++ [x]) acc).Nodup := by
  induction l with
  | nil => intro acc hacc; simpa
  | cons a t ih =>
    intro acc hacc
    rw [List.foldl_cons]
    by_cases h : acc.contains a = true
    · rw [if_pos h]
      exact ih acc hacc
    · rw [if_neg h]
      have ha : a ∉ acc := by simpa [List.contains] using h
      exact ih (acc ++ [a]) (by simp [List.nodup_append, hacc, ha])

theorem dedupList_nodup (l : List JsVal) : (dedupList l).Nodup :=
  dedupList_aux_nodup l [] List.nodup_nil

theorem dedupList_aux_eq (l : List JsVal) :
    ∀ acc : List JsVal, (acc ++ l).Nodup →
      l.foldl (fun acc x => if acc.contains x then acc else acc ++ [x]) acc = acc ++ l := by
  induction l with
  | nil => intro acc _; simp
  | cons a t ih =>
    intro acc h
    have ha : a ∉ acc := by
      intro hmem
      have hd := (List.nodup_append.mp h).2.2
      exact absurd (hd hmem) (by simp)
    have hc : acc.contains a = false := by simpa [List.contains] using ha
    rw [List.foldl_cons, if_neg (by simpa [List.contains] using ha)]
    have : ((acc ++ [a]) ++ t).Nodup := by simpa using h
    simpa using ih (acc ++ [a]) this

theorem dedupList_eq_self (l : List JsVal) (h : l.Nodup) : dedupList l = l := by
  simpa [dedupList] using dedupList_aux_eq l [] (by simpa using h)

/-- C1 counterexample: with `Child.belongsTo(Parent)` declared on `Child`,
`Child` physically holds the foreign key to `Parent`, yet the constructed
`dependingModelMap` leaves the entry of `Parent` empty and instead lists
`Parent` in the entry of `Child` — the claimed direction is inverted. -/
theorem claim1_counterexample :
    buildTracker modelsChildParent = .ok (buildTrackerD modelsChildParent) ∧
    objGet (buildTrackerD modelsChildParent).dependingModelMap "Parent" = some [] ∧
    objGet (buildTrackerD modelsChildParent).dependingModelMap "Child" = some ["Parent"] :=
  ⟨rfl, rfl, rfl⟩

/-- C2: adding a subscription and then removing the same tuple does not
restore the registry: `removeSubscription` invokes the undefined method
`this.findSBIIndex` and throws a `TypeError` on every call, leaving the
added subscription in both indices. -/
theorem claim2_theorem :
    removeSubscription stateGenericB (.str "s1") "B" .undefined true
      = (some (.typeError "this.findSBIIndex is not a function"), stateGenericB) ∧
    stateGenericB ≠ buildTrackerD modelsB :=
  ⟨rfl, by decide⟩

/-- C5: removing all subscriptions of `s1`, which owns two subscriptions,
throws on the first loop iteration (the call to the undefined
`this.findSBIIndex` inside `removeSubscription`) and removes nothing. -/
theorem claim5_theorem :
    removeSubscriptionAllModels stateTwoSubs (.str "s1")
      = (some (.typeError "this.findSBIIndex is not a function"), stateTwoSubs) ∧
    (entriesAt stateTwoSubs "s1").length = 2 :=
  ⟨rfl, rfl⟩

/-- C3 counterexample: `s` subscribes generically to `Child` and specifically
to `Parent` instance `p1`; a create on a `Child` carrying `ParentId = p1`
emits one event whose subscriber list contains `s` twice — the cascade
appends without deduplication. -/
theorem claim3_counterexample :
    notifySubscribers stateCascadeDup "Child" "create" []
        [("id", .str "c1"), ("ParentId", .str "p1")]
      = .ok (some { operation := "create", model := "Child",
                    instanceData := [("id", .str "c1"), ("ParentId", .str "p1")],
                    changedFields := [],
                    subscriptionIds := [.str "s", .str "s"] }) :=
  rfl

/-- C6 counterexample: an update whose record data lacks the record's own id
returns normally with no event and no error — the code performs no
fail-fast validation of the mutation event. -/
theorem claim6_counterexample :
    notifySubscribers (buildTrackerD modelsB) "B" "update" [] [("value", .str "x")]
      = .ok none :=
  rfl

/-- C8 counterexample: `s` registered a specific subscription on `D` with
`instanceId = null`; an update on `T` whose foreign key `DId` is `null`
cascades to `s` (both coerce to the object key `null`), contributing a
subscription id even though the foreign key is null. -/
theorem claim8_counterexample :
    notifySubscribers stateNullSub "T" "update" []
        [("id", .str "t1"), ("DId", JsVal.null)]
      = .ok (some { operation := "update", model := "T",
                    instanceData := [("id", .str "t1"), ("DId", JsVal.null)],
                    changedFields := [],
                    subscriptionIds := [.str "s"] }) :=
  rfl

/-- C9 counterexample: `C.belongsTo(U)` with `U` not among the constructed
models builds successfully — no error of any kind — and the resulting map
mentions the unknown type `U`. -/
theorem claim9_counterexample :
    buildTracker modelsUnknownTarget = .ok (buildTrackerD modelsUnknownTarget) ∧
    objGet (buildTrackerD modelsUnknownTarget).dependingModelMap "C" = some ["U"] ∧
    (buildTrackerD modelsUnknownTarget).modelNames.contains "U" = false :=
  ⟨rfl, rfl, rfl⟩

/-- C10 counterexample: with one specific subscription on `B` instance `b1`,
a delete on that instance emits nothing under the earlier revision but one
event carrying `s1` under the later revision — the two revisions are not
observationally equivalent. -/
theorem claim10_counterexample :
    notifySubscribersRev1 stateSpecificB "B" "delete" [] [("id", .str "b1")] = .ok none ∧
    notifySubscribers stateSpecificB "B" "delete" [] [("id", .str "b1")]
      = .ok (some { operation := "delete", model := "B",
                    instanceData := [("id", .str "b1")],
                    changedFields := [],
                    subscriptionIds := [.str "s1"] }) :=
  ⟨rfl, rfl⟩

/-- C4 counterexample: after registering a specific subscription whose
instance id is the string `generic`, the by-resource index holds `s1` under
the key `generic` of model `M` while the by-id bucket of `s1` holds no
generic entry for `M` — the claimed entrywise correspondence between the two
indices fails, because JS coerces object keys and the string `generic`
collides with the generic list. -/
theorem claim4_counterexample : ¬ consistentNaive stateGenericCollision := by
  intro h
  have hmem : (JsVal.str "s1") ∈ resourceList stateGenericCollision
      (SubEntry.generic "M").mName (SubEntry.generic "M").resourceKey := by decide
  have := (h (.str "s1") (.generic "M")).mpr hmem
  exact absurd this (by decide)

/-- C7: calling `addSubscription` for a tuple already present in the by-id
bucket fails with the duplicate-subscription error and returns the state
unchanged with no `subscriptions-changed` event.  The hypotheses say the
model is known and has a by-resource map — both automatic for any state the
constructor produced and the claim's premise (the subscription already
exists) presupposes. -/
theorem claim7_duplicate_add (s : TrackerState) (m : String) (sid iid : JsVal)
    (hm : s.modelNames.contains m = true)
    (hres : (objGet s.subscriptionsByResource m).isSome = true)
    (hdup : (if iid == JsVal.undefined then SubEntry.generic m else SubEntry.specific m iid)
              ∈ entriesAt s sid.toKey) :
    addSubscription s m sid iid = (some (.error "Already subscribed"), s, none) := by
  obtain ⟨resMap, hres⟩ := Option.isSome_iff_exists.mp hres
  have hmatch : entryMatches m iid (iid == JsVal.undefined)
      (if iid == JsVal.undefined then SubEntry.generic m else SubEntry.specific m iid) = true := by
    by_cases h : iid == JsVal.undefined <;> simp [entryMatches, h]
  have hne : jsFindIndex (entriesAt s sid.toKey) (entryMatches m iid (iid == JsVal.undefined)) ≠ -1 :=
    jsFindIndex_ne_neg_one _ _ ⟨_, hdup, hmatch⟩
  have hbne : (jsFindIndex (entriesAt s sid.toKey)
      (entryMatches m iid (iid == JsVal.undefined)) != -1) = true := by
    simpa using hne
  have hm' : m ∈ s.modelNames := by simpa [List.contains] using hm
  unfold addSubscription findSubscriptionIndices
  rw [if_neg (by simp [hm'])]
  rw [hres]
  simp only [entriesAt] at hbne
  simp [hbne]

/-- C7 witness: in the state holding a generic subscription of `s1` on `B`,
adding the identical tuple again fails with the duplicate error and leaves
the state untouched. -/
theorem claim7_witness :
    addSubscription stateGenericB "B" (.str "s1") .undefined
      = (some (.error "Already subscribed"), stateGenericB, none) :=
  claim7_duplicate_add stateGenericB "B" (.str "s1") .undefined (by decide) (by decide) (by decide)


theorem directSubIdsRev2_nodup {s : TrackerState} {m op : String}
    {data : List (String × JsVal)} {l : List JsVal}
    (h : directSubIdsRev2 s m op data = .ok l) : l.Nodup := by
  unfold directSubIdsRev2 at h
  cases hr : objGet s.subscriptionsByResource m with
  | none => rw [hr] at h; simp at h
  | some resMap =>
    rw [hr] at h
    simp only at h
    cases hge : (if genericOperations.contains op = true then
        match objGet resMap "generic" with
        | none => Except.error (JsError.typeError "spread of undefined")
        | some l => Except.ok l
      else Except.ok ([] : List JsVal)) with
    | error e => rw [hge] at h; simp at h
    | ok g =>
      rw [hge] at h
      simp only [Except.ok.injEq] at h
      rw [← h]
      exact dedupList_nodup _

/-- C3 amended: every emitted `data-changed` event's subscriber list is the
deduplicated direct (generic plus specific) part followed by the cascade
contributions appended as-is; the direct part never repeats a subscription id
— in particular a delete on a record held by both a generic and a specific
subscriber with the same id carries that id once in the direct part — but the
cascade append performs no deduplication against it. -/
theorem claim3_amended (s : TrackerState) (m op : String) (cf : List String)
    (data : List (String × JsVal)) (ev : DataChangedEvent)
    (h : notifySubscribers s m op cf data = .ok (some ev)) :
    ∃ direct cascadeIds,
      directSubIdsRev2 s m op data = .ok direct ∧
      cascadeSubIds s m data = .ok cascadeIds ∧
      ev.subscriptionIds = direct ++ cascadeIds ∧
      direct.Nodup := by
  unfold notifySubscribers at h
  obtain ⟨direct, hd, ht⟩ := except_bind_ok h
  unfold notifyTail at ht
  obtain ⟨cas, hc, hpure⟩ := except_bind_ok ht
  refine ⟨direct, cas, hd, hc, ?_, directSubIdsRev2_nodup hd⟩
  have hif : (if (direct ++ cas).length > 0 then
      some { operation := op, model := m, instanceData := data,
             changedFields := cf, subscriptionIds := direct ++ cas }
      else (none : Option DataChangedEvent)) = some ev := by
    simpa [pure, Except.pure] using hpure
  by_cases hlen : (direct ++ cas).length > 0
  · rw [if_pos hlen] at hif
    cases hif
    rfl
  · rw [if_neg hlen] at hif
    exact absurd hif (by simp)

/-- C3 witness: the amended statement applied to a delete on a `B` record
held by `s1` both generically and specifically — the direct part carries
`s1` exactly once. -/
theorem claim3_witness :
    ∃ direct cascadeIds,
      directSubIdsRev2 stateDeleteBoth "B" "delete" [("id", .str "b1")] = .ok direct ∧
      cascadeSubIds stateDeleteBoth "B" [("id", .str "b1")] = .ok cascadeIds ∧
      ({ operation := "delete", model := "B", instanceData := [("id", .str "b1")],
         changedFields := [], subscriptionIds := [.str "s1"] } :
         DataChangedEvent).subscriptionIds = direct ++ cascadeIds ∧
      direct.Nodup :=
  claim3_amended stateDeleteBoth "B" "delete" [] [("id", .str "b1")] _ rfl

theorem cascadeStep_skip (s : TrackerState) (data : List (String × JsVal))
    (acc : List JsVal) (d : String) (rd : List (String × List JsVal))
    (hres : objGet s.subscriptionsByResource d = some rd)
    (hkey : (objGet rd (fieldGet data (d ++ "Id")).toKey).getD [] = []) :
    cascadeStep s data acc d = .ok acc := by
  unfold cascadeStep
  rw [hres]
  cases hk : objGet rd (fieldGet data (d ++ "Id")).toKey with
  | none => simp [hk]
  | some lst =>
    rw [hk] at hkey
    simp only [Option.getD_some] at hkey
    simp [hk, hkey]

theorem cascade_fold_skip (s : TrackerState) (data : List (String × JsVal)) :
    ∀ (deps : List String) (acc : List JsVal),
      (∀ d ∈ deps, ∃ rd, objGet s.subscriptionsByResource d = some rd ∧
        (objGet rd (fieldGet data (d ++ "Id")).toKey).getD [] = []) →
      deps.foldlM (cascadeStep s data) acc = .ok acc := by
  intro deps
  induction deps with
  | nil => intro acc _; rfl
  | cons d t ih =>
    intro acc h
    obtain ⟨rd, hres, hkey⟩ := h d (by simp)
    rw [List.foldlM_cons, cascadeStep_skip s data acc d rd hres hkey]
    simpa using ih acc (fun d' hd' => h d' (by simp [hd']))

/-- C6 amended: `notifySubscribers` performs no validation of the record
data — an update or delete whose snapshot lacks the record's own id is not
rejected; whenever no subscriber matches (generic list empty, nothing under
the — possibly `undefined`-keyed — specific lookup, and no cascade
contribution) the call returns normally with no event and no error, for any
operation string. -/
theorem claim6_amended (s : TrackerState) (m op : String) (cf : List String)
    (data : List (String × JsVal)) (resMap : List (String × List JsVal))
    (deps : List String)
    (hres : objGet s.subscriptionsByResource m = some resMap)
    (hgen : objGet resMap "generic" = some [])
    (hspec : (objGet resMap (fieldGet data "id").toKey).getD [] = [])
    (hdeps : objGet s.dependingModelMap m = some deps)
    (hcas : ∀ d ∈ deps, ∃ rd, objGet s.subscriptionsByResource d = some rd ∧
              (objGet rd (fieldGet data (d ++ "Id")).toKey).getD [] = []) :
    notifySubscribers s m op cf data = .ok none := by
  have hdirect : directSubIdsRev2 s m op data = .ok [] := by
    unfold directSubIdsRev2
    rw [hres]
    simp only
    by_cases hg : genericOperations.contains op = true
    · rw [if_pos hg, hgen]
      by_cases hsp : specificOperations.contains op = true
      · rw [if_pos hsp, hspec]
        rfl
      · rw [if_neg hsp]
        rfl
    · rw [if_neg hg]
      by_cases hsp : specificOperations.contains op = true
      · rw [if_pos hsp, hspec]
        rfl
      · rw [if_neg hsp]
        rfl
  have hcascade : cascadeSubIds s m data = .ok [] := by
    unfold cascadeSubIds
    rw [hdeps]
    exact cascade_fold_skip s data deps [] hcas
  unfold notifySubscribers notifyTail
  rw [hdirect]
  show (Except.ok ([] : List JsVal) >>= _) = _
  simp only [Bind.bind, Except.bind]
  rw [hcascade]
  simp [pure, Except.pure]

/-- C6 witness: the amended statement applied to an update on `B` whose
record data has no `id` field, in a registry with no subscribers — the call
returns normally with no event. -/
theorem claim6_witness :
    notifySubscribers (buildTrackerD modelsB) "B" "update" ["value"]
        [("value", .str "x")] = .ok none :=
  claim6_amended (buildTrackerD modelsB) "B" "update" ["value"]
    [("value", .str "x")] [("generic", [])] [] rfl rfl rfl rfl (by intro d hd; cases hd)

/-- C8 amended: a cascade step whose resolved foreign key is absent or null
contributes nothing and raises no error, provided no subscription id list is
registered under the object key the absent/null value coerces to
(`undefined` resp. `null`) — a subscription registered with a null or
`'null'`/`'undefined'`-string instance id lands under that very key and is
contributed otherwise. -/
theorem claim8_amended (s : TrackerState) (data : List (String × JsVal))
    (acc : List JsVal) (d : String) (rd : List (String × List JsVal))
    (hfk : fieldGet data (d ++ "Id") = .undefined ∨ fieldGet data (d ++ "Id") = .null)
    (hres : objGet s.subscriptionsByResource d = some rd)
    (hkey : (objGet rd (fieldGet data (d ++ "Id")).toKey).getD [] = []) :
    cascadeStep s data acc d = .ok acc :=
  cascadeStep_skip s data acc d rd hres hkey

/-- C8 witness: in the state holding a null-instance subscription on `D`, a
cascade step for `D` over record data whose `DId` field is absent (hence
`undefined`) contributes nothing. -/
theorem claim8_witness :
    cascadeStep stateNullSub [("id", .str "t1")] [] "D" = .ok [] :=
  claim8_amended stateNullSub [("id", .str "t1")] [] "D"
    [("generic", []), ("null", [.str "s"])] (Or.inl rfl) rfl rfl

/-- C10 amended: the two revisions of `notifySubscribers` are not
observationally equivalent in general; they agree on `create` events whenever
the generic list exists and holds no duplicate ids, and on `update` events
whenever an entry exists for the record's id and holds no duplicate ids.
They differ on `delete` (the later revision also includes specific
subscribers, deduplicated against the generic ones) and on `update` of an
instance with no registered entry (the earlier revision throws a `TypeError`
from spreading `undefined`, the later emits nothing). -/
theorem claim10_amended (s : TrackerState) (m : String) (cf : List String)
    (data : List (String × JsVal)) (resMap : List (String × List JsVal))
    (hres : objGet s.subscriptionsByResource m = some resMap) :
    (∀ g, objGet resMap "generic" = some g → g.Nodup →
       notifySubscribersRev1 s m "create" cf data = notifySubscribers s m "create" cf data) ∧
    (∀ l, objGet resMap (fieldGet data "id").toKey = some l → l.Nodup →
       notifySubscribersRev1 s m "update" cf data = notifySubscribers s m "update" cf data) := by
  have hgen_create : genericOperations.contains "create" = true := by decide
  have hspec_create : specificOperations.contains "create" = false := by decide
  have hgen_update : genericOperations.contains "update" = false := by decide
  have hspec_update : specificOperations.contains "update" = true := by decide
  constructor
  · intro g hg hnd
    have h1 : directSubIdsRev1 s m "create" data = .ok g := by
      unfold directSubIdsRev1
      rw [hres]
      simp only [hgen_create, if_pos]
      rw [hg]
    have h2 : directSubIdsRev2 s m "create" data = .ok g := by
      unfold directSubIdsRev2
      rw [hres]
      simp only [hgen_create, hspec_create, if_pos, if_neg, Bool.false_eq_true, if_false]
      rw [hg]
      simp [dedupList_eq_self g hnd]
    unfold notifySubscribersRev1 notifySubscribers
    rw [h1, h2]
  · intro l hl hnd
    have h1 : directSubIdsRev1 s m "update" data = .ok l := by
      unfold directSubIdsRev1
      rw [hres]
      simp only [hgen_update, Bool.false_eq_true, if_false]
      rw [hl]
    have h2 : directSubIdsRev2 s m "update" data = .ok l := by
      unfold directSubIdsRev2
      rw [hres]
      simp only [hgen_update, hspec_update, Bool.false_eq_true, if_false, if_pos]
      rw [hl]
      simp [dedupList_eq_self l hnd]
    unfold notifySubscribersRev1 notifySubscribers
    rw [h1, h2]

/-- C10 witness: on the state with one generic subscription on `B`, both
revisions produce the same result for a create event on `B`. -/
theorem claim10_witness :
    notifySubscribersRev1 stateGenericB "B" "create" [] [("id", .str "b2")]
      = notifySubscribers stateGenericB "B" "create" [] [("id", .str "b2")] :=
  (claim10_amended stateGenericB "B" [] [("id", .str "b2")]
      [("generic", [.str "s1"])] rfl).1 [.str "s1"] rfl (by decide)



theorem pushUnique_some {dmm : List (String × List String)} {key : String}
    {lst : List String} (val : String) (hget : objGet dmm key = some lst) :
    pushUnique dmm key val =
      if lst.contains val then .ok dmm else .ok (objSet dmm key (lst ++ [val])) := by
  unfold pushUnique
  rw [hget]

theorem pushUnique_none {dmm : List (String × List String)} {key : String}
    (val : String) (hget : objGet dmm key = none) :
    pushUnique dmm key val
      = .error (.typeError "Cannot read properties of undefined (reading includes)") := by
  unfold pushUnique
  rw [hget]

theorem pushUnique_ok_mem {dmm dmm' : List (String × List String)} {key val : String}
    (h : pushUnique dmm key val = .ok dmm') (c p : String) :
    (p ∈ dmmGet dmm' c ↔ (p ∈ dmmGet dmm c ∨ (key = c ∧ val = p))) := by
  cases hget : objGet dmm key with
  | none => rw [pushUnique_none val hget] at h; simp at h
  | some lst =>
    rw [pushUnique_some val hget, ← apply_ite Except.ok] at h
    injection h with h
    rw [← h]
    by_cases hc : lst.contains val = true
    · rw [if_pos hc]
      constructor
      · exact fun hp => Or.inl hp
      · rintro (hp | ⟨hk, hv⟩)
        · exact hp
        · rw [← hv]
          have hval : val ∈ lst := by simpa [List.contains] using hc
          rw [← hk] at *
          simpa [dmmGet, hget] using hval
    · rw [if_neg hc]
      by_cases hkc : key = c
      · have hnew : dmmGet (objSet dmm key (lst ++ [val])) c = lst ++ [val] := by
          rw [← hkc]
          simp [dmmGet, objGet_objSet_self]
        have hold : dmmGet dmm c = lst := by
          rw [← hkc]
          simp [dmmGet, hget]
        rw [hnew, hold]
        simp only [List.mem_append, List.mem_singleton]
        constructor
        · rintro (hp | hp)
          · exact Or.inl hp
          · exact Or.inr ⟨hkc, hp.symm⟩
        · rintro (hp | ⟨_, hv⟩)
          · exact Or.inl hp
          · exact Or.inr hv.symm
      · have : dmmGet (objSet dmm key (lst ++ [val])) c = dmmGet dmm c := by
          simp [dmmGet, objGet_objSet_ne _ _ _ _ hkc]
        rw [this]
        constructor
        · exact fun hp => Or.inl hp
        · rintro (hp | ⟨hk, _⟩)
          · exact hp
          · exact absurd hk hkc

theorem pushUnique_ok_nodup {dmm dmm' : List (String × List String)} {key val : String}
    (h : pushUnique dmm key val = .ok dmm')
    (hnd : ∀ c, (dmmGet dmm c).Nodup) :
    ∀ c, (dmmGet dmm' c).Nodup := by
  intro c
  cases hget : objGet dmm key with
  | none => rw [pushUnique_none val hget] at h; simp at h
  | some lst =>
    rw [pushUnique_some val hget, ← apply_ite Except.ok] at h
    injection h with h
    rw [← h]
    by_cases hc : lst.contains val = true
    · rw [if_pos hc]; exact hnd c
    · rw [if_neg hc]
      by_cases hkc : key = c
      · have hnew : dmmGet (objSet dmm key (lst ++ [val])) c = lst ++ [val] := by
          rw [← hkc]
          simp [dmmGet, objGet_objSet_self]
        have hold : dmmGet dmm key = lst := by simp [dmmGet, hget]
        rw [hnew]
        have hval : val ∉ lst := by simpa [List.contains] using hc
        have hnd' := hnd key
        rw [hold] at hnd'
        simp [List.nodup_append, hnd', hval]
      · have : dmmGet (objSet dmm key (lst ++ [val])) c = dmmGet dmm c := by
          simp [dmmGet, objGet_objSet_ne _ _ _ _ hkc]
        rw [this]
        exact hnd c

theorem applyAssociation_ok_mem {dmm dmm' : List (String × List String)}
    {a : Association} (h : applyAssociation dmm a = .ok dmm') (c p : String) :
    (p ∈ dmmGet dmm' c ↔ (p ∈ dmmGet dmm c ∨ holdsForeignKey a c p)) := by
  unfold applyAssociation at h
  cases hk : a.kind with
  | belongsTo =>
    rw [hk] at h
    rw [pushUnique_ok_mem h c p]
    have : holdsForeignKey a c p ↔ (a.source = c ∧ a.target = p) := by
      simp [holdsForeignKey, hk]
    rw [this]
  | belongsToMany =>
    rw [hk] at h
    rw [pushUnique_ok_mem h c p]
    have : holdsForeignKey a c p ↔ (a.source = c ∧ a.target = p) := by
      simp [holdsForeignKey, hk]
    rw [this]
  | hasOne =>
    rw [hk] at h
    rw [pushUnique_ok_mem h c p]
    have : holdsForeignKey a c p ↔ (a.target = c ∧ a.source = p) := by
      simp [holdsForeignKey, hk, and_comm]
    rw [this]
  | hasMany =>
    rw [hk] at h
    rw [pushUnique_ok_mem h c p]
    have : holdsForeignKey a c p ↔ (a.target = c ∧ a.source = p) := by
      simp [holdsForeignKey, hk, and_comm]
    rw [this]

theorem applyAssociation_ok_nodup {dmm dmm' : List (String × List String)}
    {a : Association} (h : applyAssociation dmm a = .ok dmm')
    (hnd : ∀ c, (dmmGet dmm c).Nodup) : ∀ c, (dmmGet dmm' c).Nodup := by
  unfold applyAssociation at h
  cases hk : a.kind <;> rw [hk] at h <;> exact pushUnique_ok_nodup h hnd

theorem foldAssociations_ok_mem (l : List Association) :
    ∀ {dmm dmm' : List (String × List String)},
      l.foldlM applyAssociation dmm = .ok dmm' → ∀ c p,
      (p ∈ dmmGet dmm' c ↔ (p ∈ dmmGet dmm c ∨ ∃ a ∈ l, holdsForeignKey a c p)) := by
  induction l with
  | nil =>
    intro dmm dmm' h c p
    have hd : dmm = dmm' := by simpa [List.foldlM, pure, Except.pure] using h
    subst hd
    simp
  | cons a t ih =>
    intro dmm dmm' h c p
    rw [List.foldlM_cons] at h
    obtain ⟨mid, h1, h2⟩ := except_bind_ok h
    rw [ih h2 c p, applyAssociation_ok_mem h1 c p]
    constructor
    · rintro ((hp | hp) | hp)
      · exact Or.inl hp
      · exact Or.inr ⟨a, by simp, hp⟩
      · obtain ⟨a', ha', hfk⟩ := hp
        exact Or.inr ⟨a', by simp [ha'], hfk⟩
    · rintro (hp | ⟨a', ha', hfk⟩)
      · exact Or.inl (Or.inl hp)
      · rcases List.mem_cons.mp ha' with ha' | ha'
        · subst ha'; exact Or.inl (Or.inr hfk)
        · exact Or.inr ⟨a', ha', hfk⟩

theorem foldAssociations_ok_nodup (l : List Association) :
    ∀ {dmm dmm' : List (String × List String)},
      l.foldlM applyAssociation dmm = .ok dmm' →
      (∀ c, (dmmGet dmm c).Nodup) → ∀ c, (dmmGet dmm' c).Nodup := by
  induction l with
  | nil =>
    intro dmm dmm' h hnd
    have hd : dmm = dmm' := by simpa [List.foldlM, pure, Except.pure] using h
    subst hd
    exact hnd
  | cons a t ih =>
    intro dmm dmm' h hnd
    rw [List.foldlM_cons] at h
    obtain ⟨mid, h1, h2⟩ := except_bind_ok h
    exact ih h2 (applyAssociation_ok_nodup h1 hnd)

theorem foldModels_ok_mem (models : List ModelDecl) :
    ∀ {dmm dmm' : List (String × List String)},
      models.foldlM (fun d mo => mo.associations.foldlM applyAssociation d) dmm = .ok dmm' →
      ∀ c p, (p ∈ dmmGet dmm' c ↔ (p ∈ dmmGet dmm c ∨ declaredForeignKey models c p)) := by
  induction models with
  | nil =>
    intro dmm dmm' h c p
    have hd : dmm = dmm' := by simpa [List.foldlM, pure, Except.pure] using h
    subst hd
    simp [declaredForeignKey]
  | cons mo t ih =>
    intro dmm dmm' h c p
    rw [List.foldlM_cons] at h
    obtain ⟨mid, h1, h2⟩ := except_bind_ok h
    rw [ih h2 c p, foldAssociations_ok_mem mo.associations h1 c p]
    unfold declaredForeignKey
    constructor
    · rintro ((hp | hp) | hp)
      · exact Or.inl hp
      · obtain ⟨a, ha, hfk⟩ := hp
        exact Or.inr ⟨mo, by simp, a, ha, hfk⟩
      · obtain ⟨mo', hmo', a, ha, hfk⟩ := hp
        exact Or.inr ⟨mo', by simp [hmo'], a, ha, hfk⟩
    · rintro (hp | ⟨mo', hmo', a, ha, hfk⟩)
      · exact Or.inl (Or.inl hp)
      · rcases List.mem_cons.mp hmo' with hmo' | hmo'
        · subst hmo'; exact Or.inl (Or.inr ⟨a, ha, hfk⟩)
        · exact Or.inr ⟨mo', hmo', a, ha, hfk⟩

theorem foldModels_ok_nodup (models : List ModelDecl) :
    ∀ {dmm dmm' : List (String × List String)},
      models.foldlM (fun d mo => mo.associations.foldlM applyAssociation d) dmm = .ok dmm' →
      (∀ c, (dmmGet dmm c).Nodup) → ∀ c, (dmmGet dmm' c).Nodup := by
  induction models with
  | nil =>
    intro dmm dmm' h hnd
    have hd : dmm = dmm' := by simpa [List.foldlM, pure, Except.pure] using h
    subst hd
    exact hnd
  | cons mo t ih =>
    intro dmm dmm' h hnd
    rw [List.foldlM_cons] at h
    obtain ⟨mid, h1, h2⟩ := except_bind_ok h
    exact ih h2 (foldAssociations_ok_nodup mo.associations h1 hnd)

theorem initMap_values (models : List ModelDecl) :
    ∀ (l0 : List (String × List String)), (∀ q ∈ l0, q.2 = ([] : List String)) →
      ∀ q ∈ models.foldl (fun d m => objSet d m.name []) l0, q.2 = ([] : List String) := by
  induction models with
  | nil => intro l0 h0 q hq; exact h0 q hq
  | cons mo t ih =>
    intro l0 h0 q hq
    refine ih (objSet l0 mo.name []) ?_ q hq
    intro q' hq'
    rcases mem_objSet hq' with h' | h'
    · exact h0 q' h'
    · rw [h']

theorem dmmGet_initMap (models : List ModelDecl) (c : String) :
    dmmGet (models.foldl (fun d m => objSet d m.name []) []) c = [] := by
  unfold dmmGet
  cases hg : objGet (models.foldl (fun d m => objSet d m.name []) []) c with
  | none => simp
  | some lst =>
    have := initMap_values models [] (by simp) _ (objGet_mem hg)
    simpa using this

/-- C1 amended: the constructed dependency map records the relation in the
opposite direction from the claim — for every configuration the constructor
accepts, the dependency-map entry of the foreign-key holder `c` lists each
referenced type `p` exactly once: the entry has no duplicates, and `p` is in
it precisely when some declared association (in either declaration
direction) makes `c` the physical holder of a foreign reference to `p`. -/
theorem claim1_amended (models : List ModelDecl) (s : TrackerState) (c p : String)
    (h : buildTracker models = .ok s) :
    (dmmGet s.dependingModelMap c).Nodup ∧
    (p ∈ dmmGet s.dependingModelMap c ↔ declaredForeignKey models c p) := by
  unfold buildTracker at h
  obtain ⟨dmm, hb, hp⟩ := except_bind_ok h
  have hps : s.dependingModelMap = dmm := by
    have : (⟨models.map (fun m => m.name), dmm,
        models.foldl (fun r m => objSet r m.name [("generic", [])]) [], []⟩ : TrackerState)
        = s := by
      simpa [pure, Except.pure] using hp
    rw [← this]
  unfold buildDependingModelMap at hb
  constructor
  · rw [hps]
    refine foldModels_ok_nodup models hb ?_ c
    intro c'
    rw [dmmGet_initMap]
    exact List.nodup_nil
  · rw [hps, foldModels_ok_mem models hb c p, dmmGet_initMap]
    simp

/-- C1 witness: with the same relation declared from both directions
(`Child.belongsTo(Parent)` and `Parent.hasMany(Child)`), the entry of the
foreign-key holder `Child` is duplicate-free and contains `Parent` exactly
when some declaration makes `Child` the holder of a reference to `Parent`. -/
theorem claim1_witness :
    (dmmGet (buildTrackerD modelsBothDirections).dependingModelMap "Child").Nodup ∧
    ("Parent" ∈ dmmGet (buildTrackerD modelsBothDirections).dependingModelMap "Child" ↔
      declaredForeignKey modelsBothDirections "Child" "Parent") :=
  claim1_amended modelsBothDirections (buildTrackerD modelsBothDirections) "Child" "Parent" rfl


theorem objGet_objSet_isSome {α : Type} (l : List (String × α)) (k c : String) (v : α) :
    (objGet (objSet l k v) c).isSome ↔ ((objGet l c).isSome ∨ c = k) := by
  by_cases hc : k = c
  · rw [← hc, objGet_objSet_self]
    simp
  · rw [objGet_objSet_ne _ _ _ _ hc]
    have hck : c ≠ k := fun h => hc h.symm
    simp [hck]

theorem pushUnique_error_iff {dmm : List (String × List String)} {key : String}
    {names : List String} (val : String) (hk : sameKeys dmm names) :
    (∃ e, pushUnique dmm key val = .error e) ↔ key ∉ names := by
  cases hget : objGet dmm key with
  | none =>
    have hkey : key ∉ names := by
      intro hmem
      have := (hk key).mpr hmem
      rw [hget] at this
      simp at this
    simp [pushUnique_none val hget, hkey]
  | some lst =>
    have hkey : key ∈ names := (hk key).mp (by simp [hget])
    rw [pushUnique_some val hget]
    constructor
    · rintro ⟨e, he⟩
      by_cases hc : lst.contains val = true
      · rw [if_pos hc] at he; cases he
      · rw [if_neg hc] at he; cases he
    · intro hmem; exact absurd hkey hmem

theorem pushUnique_ok_sameKeys {dmm dmm' : List (String × List String)} {key val : String}
    {names : List String} (h : pushUnique dmm key val = .ok dmm')
    (hk : sameKeys dmm names) : sameKeys dmm' names := by
  cases hget : objGet dmm key with
  | none => rw [pushUnique_none val hget] at h; cases h
  | some lst =>
    have hkey : key ∈ names := (hk key).mp (by simp [hget])
    rw [pushUnique_some val hget, ← apply_ite Except.ok] at h
    injection h with h
    rw [← h]
    by_cases hc : lst.contains val = true
    · rw [if_pos hc]; exact hk
    · rw [if_neg hc]
      intro c
      rw [objGet_objSet_isSome, hk c]
      constructor
      · rintro (hm | hm)
        · exact hm
        · rw [hm]; exact hkey
      · exact fun hm => Or.inl hm

theorem applyAssociation_error_iff {dmm : List (String × List String)} {a : Association}
    {names : List String} (hk : sameKeys dmm names) :
    (∃ e, applyAssociation dmm a = .error e) ↔ badAssociation names a := by
  unfold applyAssociation
  cases hak : a.kind with
  | belongsTo =>
    rw [pushUnique_error_iff a.target hk]
    simp [badAssociation, hak]
  | belongsToMany =>
    rw [pushUnique_error_iff a.target hk]
    simp [badAssociation, hak]
  | hasOne =>
    rw [pushUnique_error_iff a.source hk]
    simp [badAssociation, hak]
  | hasMany =>
    rw [pushUnique_error_iff a.source hk]
    simp [badAssociation, hak]

theorem applyAssociation_ok_sameKeys {dmm dmm' : List (String × List String)}
    {a : Association} {names : List String} (h : applyAssociation dmm a = .ok dmm')
    (hk : sameKeys dmm names) : sameKeys dmm' names := by
  unfold applyAssociation at h
  cases hak : a.kind <;> rw [hak] at h <;> exact pushUnique_ok_sameKeys h hk

theorem foldAssociations_ok_sameKeys (l : List Association) :
    ∀ {dmm dmm' : List (String × List String)} {names : List String},
      l.foldlM applyAssociation dmm = .ok dmm' → sameKeys dmm names → sameKeys dmm' names := by
  induction l with
  | nil =>
    intro dmm dmm' names h hk
    have hd : dmm = dmm' := by simpa [List.foldlM, pure, Except.pure] using h
    subst hd
    exact hk
  | cons a t ih =>
    intro dmm dmm' names h hk
    rw [List.foldlM_cons] at h
    obtain ⟨mid, h1, h2⟩ := except_bind_ok h
    exact ih h2 (applyAssociation_ok_sameKeys h1 hk)

theorem foldAssociations_error_iff (l : List Association) :
    ∀ {dmm : List (String × List String)} {names : List String}, sameKeys dmm names →
      ((∃ e, l.foldlM applyAssociation dmm = .error e) ↔ ∃ a ∈ l, badAssociation names a) := by
  induction l with
  | nil =>
    intro dmm names hk
    simp [List.foldlM, pure, Except.pure]
  | cons a t ih =>
    intro dmm names hk
    rw [List.foldlM_cons]
    cases happ : applyAssociation dmm a with
    | error e =>
      have hbad : badAssociation names a := (applyAssociation_error_iff hk).mp ⟨e, happ⟩
      simp only [Bind.bind, Except.bind]
      constructor
      · intro _; exact ⟨a, by simp, hbad⟩
      · intro _; exact ⟨e, rfl⟩
    | ok mid =>
      have hgood : ¬ badAssociation names a := by
        intro hbad
        obtain ⟨e, he⟩ := (applyAssociation_error_iff hk).mpr hbad
        rw [happ] at he
        cases he
      have hmid : sameKeys mid names := applyAssociation_ok_sameKeys happ hk
      simp only [Bind.bind, Except.bind]
      rw [ih hmid]
      constructor
      · rintro ⟨a', ha', hbad⟩
        exact ⟨a', by simp [ha'], hbad⟩
      · rintro ⟨a', ha', hbad⟩
        rcases List.mem_cons.mp ha' with ha' | ha'
        · subst ha'; exact absurd hbad hgood
        · exact ⟨a', ha', hbad⟩

theorem foldModels_error_iff (models : List ModelDecl) :
    ∀ {dmm : List (String × List String)} {names : List String}, sameKeys dmm names →
      ((∃ e, models.foldlM (fun d mo => mo.associations.foldlM applyAssociation d) dmm
          = .error e)
        ↔ ∃ mo ∈ models, ∃ a ∈ mo.associations, badAssociation names a) := by
  induction models with
  | nil =>
    intro dmm names hk
    simp [List.foldlM, pure, Except.pure]
  | cons mo t ih =>
    intro dmm names hk
    rw [List.foldlM_cons]
    cases happ : mo.associations.foldlM applyAssociation dmm with
    | error e =>
      have hbad : ∃ a ∈ mo.associations, badAssociation names a :=
        (foldAssociations_error_iff mo.associations hk).mp ⟨e, happ⟩
      simp only [Bind.bind, Except.bind]
      constructor
      · intro _; exact ⟨mo, by simp, hbad⟩
      · intro _; exact ⟨e, rfl⟩
    | ok mid =>
      have hgood : ¬ ∃ a ∈ mo.associations, badAssociation names a := by
        intro hbad
        obtain ⟨e, he⟩ := (foldAssociations_error_iff mo.associations hk).mpr hbad
        rw [happ] at he
        cases he
      have hmid : sameKeys mid names := foldAssociations_ok_sameKeys mo.associations happ hk
      simp only [Bind.bind, Except.bind]
      rw [ih hmid]
      constructor
      · rintro ⟨mo', hmo', hbad⟩
        exact ⟨mo', by simp [hmo'], hbad⟩
      · rintro ⟨mo', hmo', hbad⟩
        rcases List.mem_cons.mp hmo' with hmo' | hmo'
        · subst hmo'; exact absurd hbad hgood
        · exact ⟨mo', hmo', hbad⟩

theorem initMap_sameKeys_aux (models : List ModelDecl) :
    ∀ (l0 : List (String × List String)) (c : String),
      (objGet (models.foldl (fun d m => objSet d m.name []) l0) c).isSome ↔
        ((objGet l0 c).isSome ∨ c ∈ models.map (fun m => m.name)) := by
  induction models with
  | nil => intro l0 c; simp
  | cons mo t ih =>
    intro l0 c
    rw [List.foldl_cons, ih (objSet l0 mo.name []) c, objGet_objSet_isSome]
    simp [or_assoc]

theorem initMap_sameKeys (models : List ModelDecl) :
    sameKeys (models.foldl (fun d m => objSet d m.name []) [])
      (models.map (fun m => m.name)) := by
  intro c
  rw [initMap_sameKeys_aux models [] c]
  simp [objGet_nil]

theorem buildTracker_error_iff (models : List ModelDecl) :
    (∃ e, buildTracker models = .error e) ↔
      (∃ e, buildDependingModelMap models = .error e) := by
  unfold buildTracker
  cases hb : buildDependingModelMap models with
  | error e => simp [Bind.bind, Except.bind]
  | ok dmm => simp [Bind.bind, Except.bind, pure, Except.pure]

/-- C9 amended: construction fails at build time — with a plain JavaScript
`TypeError` from indexing the missing map entry, not a dedicated
configuration error — exactly when some association's key side (the source of
a `BelongsTo`/`BelongsToMany`, the target of a `HasOne`/`HasMany`) names a
type outside the constructed set; an unknown type on the value side (e.g.
the target of a `BelongsTo`) is accepted silently and the unknown type
appears in the produced dependency map. -/
theorem claim9_amended (models : List ModelDecl) :
    (∃ e, buildTracker models = .error e) ↔
      ∃ mo ∈ models, ∃ a ∈ mo.associations,
        badAssociation (models.map (fun m => m.name)) a := by
  rw [buildTracker_error_iff]
  unfold buildDependingModelMap
  exact foldModels_error_iff models (initMap_sameKeys models)

theorem filter_append_singleton {α : Type} (l : List α) (x : α) (p : α → Bool) :
    (List.filter p (l ++ [x])).length
      = (List.filter p l).length + (if p x then 1 else 0) := by
  rw [List.filter_append]
  by_cases h : p x = true
  · simp [h]
  · simp [h]

theorem consistentKeyed_push (s : TrackerState) (hs : consistentKeyed s)
    (sid : JsVal) (e0 : SubEntry) (resMap : List (String × List JsVal))
    (oldList : List JsVal)
    (hres : objGet s.subscriptionsByResource e0.mName = some resMap)
    (hold : (objGet resMap e0.resourceKey).getD [] = oldList) :
    consistentKeyed
      { s with
        subscriptionsById := objSet s.subscriptionsById sid.toKey
          ((objGet s.subscriptionsById sid.toKey).getD [] ++ [e0])
        subscriptionsByResource := objSet s.subscriptionsByResource e0.mName
          (objSet resMap e0.resourceKey (oldList ++ [sid])) } := by
  intro SK M K
  have hbase := hs SK M K
  unfold entryCount resourceCount entriesAt resourceList at hbase ⊢
  dsimp only
  -- the by-id side
  have hL : (List.filter (fun e => e.mName == M && e.resourceKey == K)
      ((objGet (objSet s.subscriptionsById sid.toKey
        ((objGet s.subscriptionsById sid.toKey).getD [] ++ [e0])) SK).getD [])).length
      = (List.filter (fun e => e.mName == M && e.resourceKey == K)
          ((objGet s.subscriptionsById SK).getD [])).length
        + (if sid.toKey = SK then
            (if e0.mName == M && e0.resourceKey == K then 1 else 0) else 0) := by
    by_cases hSK : sid.toKey = SK
    · rw [← hSK, objGet_objSet_self, if_pos rfl]
      simp only [Option.getD_some]
      exact filter_append_singleton _ _ _
    · rw [objGet_objSet_ne _ _ _ _ hSK, if_neg hSK]
      simp
  -- the by-resource side
  have hR : (List.filter (fun id => id.toKey == SK)
      ((objGet ((objGet (objSet s.subscriptionsByResource e0.mName
        (objSet resMap e0.resourceKey (oldList ++ [sid]))) M).getD []) K).getD [])).length
      = (List.filter (fun id => id.toKey == SK)
          ((objGet ((objGet s.subscriptionsByResource M).getD []) K).getD [])).length
        + (if e0.mName = M then (if e0.resourceKey = K then
            (if sid.toKey == SK then 1 else 0) else 0) else 0) := by
    by_cases hM : e0.mName = M
    · rw [← hM, objGet_objSet_self, if_pos rfl]
      simp only [Option.getD_some]
      rw [hres]
      simp only [Option.getD_some]
      by_cases hK : e0.resourceKey = K
      · rw [← hK, objGet_objSet_self, if_pos rfl]
        simp only [Option.getD_some]
        rw [hold]
        exact filter_append_singleton _ _ _
      · rw [objGet_objSet_ne _ _ _ _ hK, if_neg hK]
        simp
    · rw [objGet_objSet_ne _ _ _ _ hM, if_neg hM]
      simp
  rw [hL, hR, hbase]
  -- both correction terms agree
  by_cases hSK : sid.toKey = SK
  · by_cases hM : e0.mName = M
    · by_cases hK : e0.resourceKey = K
      · simp [hSK, hM, hK]
      · have : (e0.resourceKey == K) = false := by simpa using hK
        simp [hSK, hM, hK, this]
    · have : (e0.mName == M) = false := by simpa using hM
      simp [hSK, hM, this]
  · by_cases hM : e0.mName = M
    · by_cases hK : e0.resourceKey = K
      · have : (sid.toKey == SK) = false := by simpa using hSK
        simp [hSK, hM, hK, this]
      · simp [hSK, hM, hK]
    · simp [hSK, hM]


theorem genericListsPresent_push (s : TrackerState) (hgen : genericListsPresent s)
    (sid : JsVal) (e0 : SubEntry) (resMap : List (String × List JsVal))
    (oldList : List JsVal)
    (hres : objGet s.subscriptionsByResource e0.mName = some resMap) :
    genericListsPresent
      { s with
        subscriptionsById := objSet s.subscriptionsById sid.toKey
          ((objGet s.subscriptionsById sid.toKey).getD [] ++ [e0])
        subscriptionsByResource := objSet s.subscriptionsByResource e0.mName
          (objSet resMap e0.resourceKey (oldList ++ [sid])) } := by
  intro m' hm'
  by_cases hM : e0.mName = m'
  · obtain ⟨rm, hrm, hgs⟩ := hgen m' hm'
    rw [← hM] at hrm
    rw [hres] at hrm
    injection hrm with hrm
    refine ⟨objSet resMap e0.resourceKey (oldList ++ [sid]), ?_, ?_⟩
    · show objGet (objSet s.subscriptionsByResource e0.mName _) m' = _
      rw [← hM]
      exact objGet_objSet_self _ _ _
    · by_cases hK : e0.resourceKey = "generic"
      · rw [← hK, objGet_objSet_self]
        simp
      · rw [objGet_objSet_ne _ _ _ _ hK, hrm]
        exact hgs
  · obtain ⟨rm', hrm', hgs'⟩ := hgen m' hm'
    refine ⟨rm', ?_, hgs'⟩
    show objGet (objSet s.subscriptionsByResource e0.mName _) m' = _
    rw [objGet_objSet_ne _ _ _ _ hM]
    exact hrm'

theorem addSubscription_wf (s : TrackerState) (m : String) (sid iid : JsVal)
    (h : trackerWF s) : trackerWF (addSubscription s m sid iid).2.1 := by
  obtain ⟨hck, hgen⟩ := h
  unfold addSubscription
  by_cases hm : s.modelNames.contains m = true
  · rw [if_neg (not_not_intro hm)]
    dsimp only
    split
    · exact ⟨hck, hgen⟩
    next sbi sbr heq =>
      split
      · exact ⟨hck, hgen⟩
      · split
        · exact ⟨hck, hgen⟩
        next resMap heq2 =>
          split
          next hg =>
            split
            next heq3 =>
              obtain ⟨rm, hrm, hgs⟩ := hgen m hm
              rw [heq2] at hrm
              injection hrm with hrm
              rw [← hrm] at hgs
              rw [heq3] at hgs
              cases hgs
            next genList heq3 =>
              have hold : (objGet resMap (SubEntry.generic m).resourceKey).getD []
                  = genList := by
                simp [SubEntry.resourceKey, heq3]
              exact ⟨consistentKeyed_push s hck sid (SubEntry.generic m) resMap genList
                       heq2 hold,
                     genericListsPresent_push s hgen sid (SubEntry.generic m) resMap genList
                       heq2⟩
          next hg =>
            exact ⟨consistentKeyed_push s hck sid (SubEntry.specific m iid) resMap
                     ((objGet resMap iid.toKey).getD []) heq2 rfl,
                   genericListsPresent_push s hgen sid (SubEntry.specific m iid) resMap
                     ((objGet resMap iid.toKey).getD []) heq2⟩
  · rw [if_pos hm]
    exact ⟨hck, hgen⟩

theorem removeAllLoop_state (sid : JsVal) :
    ∀ (fuel i : Nat) (s : TrackerState), (removeAllLoop sid fuel i s).2 = s := by
  intro fuel
  induction fuel with
  | zero => intro i s; rfl
  | succ n ih =>
    intro i s
    unfold removeAllLoop
    cases h : ((objGet s.subscriptionsById sid.toKey).getD [])[i]? with
    | none => simp [h]
    | some e => simp [h, removeSubscription]

theorem removeSubscriptionAllModels_state (s : TrackerState) (sid : JsVal) :
    (removeSubscriptionAllModels s sid).2 = s := by
  unfold removeSubscriptionAllModels
  cases h : objGet s.subscriptionsById sid.toKey with
  | none => rfl
  | some bucket => exact removeAllLoop_state sid bucket.length 0 s

theorem foldAdd_wf (sid : JsVal) (l : List (String × JsVal)) :
    ∀ (acc : Option JsError × TrackerState), trackerWF acc.2 →
      trackerWF ((l.foldl (fun acc inst =>
        match acc with
        | (some e, s') => (some e, s')
        | (none, s') =>
          match addSubscription s' inst.1 sid inst.2 with
          | (e, s'', _) => (e, s'')) acc).2) := by
  induction l with
  | nil => intro acc h; exact h
  | cons inst t ih =>
    intro acc h
    rw [List.foldl_cons]
    cases acc with
    | mk e s' =>
      cases e with
      | some e => exact ih (some e, s') h
      | none =>
        have hwf := addSubscription_wf s' inst.1 sid inst.2 h
        cases hadd : addSubscription s' inst.1 sid inst.2 with
        | mk e' rest =>
          cases rest with
          | mk s'' ev =>
            rw [hadd] at hwf
            dsimp only
            simp only [hadd]
            exact ih (e', s'') hwf

theorem addSubscriptionIfRequested_wf (s : TrackerState)
    (instances : Option (List (String × JsVal))) (trackChanges : Option JsVal)
    (h : trackerWF s) : trackerWF (addSubscriptionIfRequested s instances trackChanges).2 := by
  unfold addSubscriptionIfRequested
  cases instances with
  | none => exact h
  | some insts =>
    cases trackChanges with
    | none => exact h
    | some sid =>
      dsimp only
      split
      · exact h
      · exact foldAdd_wf sid insts (none, s) h

theorem stepCall_wf (c : RegistryCall) (s : TrackerState) (h : trackerWF s) :
    trackerWF (stepCall c s).2 := by
  cases c with
  | add m sid iid =>
    have hwf := addSubscription_wf s m sid iid h
    unfold stepCall
    dsimp only
    cases hadd : addSubscription s m sid iid with
    | mk e rest =>
      cases rest with
      | mk s' ev =>
        rw [hadd] at hwf
        exact hwf
  | remove sid m iid g => exact h
  | removeAll sid =>
    unfold stepCall
    dsimp only
    rw [removeSubscriptionAllModels_state]
    exact h
  | trackedRead insts tc => exact addSubscriptionIfRequested_wf s insts tc h

theorem runCalls_wf (cs : List RegistryCall) :
    ∀ (s : TrackerState), trackerWF s → trackerWF (runCalls cs s) := by
  induction cs with
  | nil => intro s h; exact h
  | cons c t ih =>
    intro s h
    unfold runCalls
    rw [List.foldl_cons]
    exact ih _ (stepCall_wf c s h)

theorem foldl_objSet_const {α : Type} (v : α) (models : List ModelDecl) :
    ∀ (l0 : List (String × α)), (∀ q ∈ l0, q.2 = v) →
      ∀ q ∈ models.foldl (fun d m => objSet d m.name v) l0, q.2 = v := by
  induction models with
  | nil => intro l0 h0 q hq; exact h0 q hq
  | cons mo t ih =>
    intro l0 h0 q hq
    refine ih (objSet l0 mo.name v) ?_ q hq
    intro q' hq'
    rcases mem_objSet hq' with h' | h'
    · exact h0 q' h'
    · rw [h']

theorem foldl_objSet_const_isSome {α : Type} (v : α) (models : List ModelDecl) :
    ∀ (l0 : List (String × α)) (c : String),
      (objGet (models.foldl (fun d m => objSet d m.name v) l0) c).isSome ↔
        ((objGet l0 c).isSome ∨ c ∈ models.map (fun m => m.name)) := by
  induction models with
  | nil => intro l0 c; simp
  | cons mo t ih =>
    intro l0 c
    rw [List.foldl_cons, ih (objSet l0 mo.name v) c, objGet_objSet_isSome]
    simp [or_assoc]

theorem buildTracker_wf (models : List ModelDecl) (s : TrackerState)
    (h : buildTracker models = .ok s) : trackerWF s := by
  unfold buildTracker at h
  obtain ⟨dmm, hb, hp⟩ := except_bind_ok h
  have hs : (⟨models.map (fun m => m.name), dmm,
      models.foldl (fun r m => objSet r m.name [("generic", [])]) [], []⟩ : TrackerState)
      = s := by
    simpa [pure, Except.pure] using hp
  rw [← hs]
  constructor
  · intro SK M K
    unfold entryCount resourceCount entriesAt resourceList
    dsimp only
    rw [objGet_nil]
    simp only [Option.getD_none, List.filter_nil, List.length_nil]
    cases hr : objGet (models.foldl (fun r m => objSet r m.name [("generic", [])]) []) M with
    | none => simp [objGet_nil]
    | some rm =>
      have hval := foldl_objSet_const [("generic", ([] : List JsVal))] models [] (by simp)
        _ (objGet_mem hr)
      simp only at hval
      simp only [Option.getD_some]
      rw [hval]
      rw [objGet_cons]
      by_cases hK : "generic" = K
      · simp [hK]
      · simp [hK, objGet_nil]
  · intro m' hm'
    have hm'' : m' ∈ models.map (fun m => m.name) := by
      simpa [List.contains] using hm'
    have hsome : (objGet (models.foldl
        (fun r m => objSet r m.name [("generic", ([] : List JsVal))]) []) m').isSome := by
      rw [foldl_objSet_const_isSome]
      exact Or.inr hm''
    obtain ⟨rm, hrm⟩ := Option.isSome_iff_exists.mp hsome
    have hval := foldl_objSet_const [("generic", ([] : List JsVal))] models [] (by simp)
      _ (objGet_mem hrm)
    simp only at hval
    refine ⟨rm, hrm, ?_⟩
    rw [hval]
    rw [objGet_cons]
    simp

/-- C4 amended: across every sequence of registry calls on a constructed
tracker — explicit add, (always-throwing) remove, remove-all, and the
tracked-read add path, whether each call returns or throws — the two indices
stay mutually consistent at the level of coerced resource keys, with
multiplicity: for every subscriber key, model and resource key, the by-id
bucket holds as many matching entries as the by-resource list holds matching
subscription ids.  The claim's raw, entrywise correspondence fails because
JavaScript coerces object keys to strings, conflating e.g. a specific
instance id `'generic'` with the generic list. -/
theorem claim4_amended (models : List ModelDecl) (s : TrackerState)
    (cs : List RegistryCall) (h : buildTracker models = .ok s) :
    consistentKeyed (runCalls cs s) :=
  (runCalls_wf cs s (buildTracker_wf models s h)).1

/-- C4 witness: keyed consistency holds even in the collision state used as
counterexample to the raw entrywise phrasing. -/
theorem claim4_witness :
    consistentKeyed (runCalls [.add "M" (.str "s1") (.str "generic")]
      (buildTrackerD [⟨"M", []⟩])) :=
  claim4_amended [⟨"M", []⟩] (buildTrackerD [⟨"M", []⟩])
    [.add "M" (.str "s1") (.str "generic")] rfl
